import Mathlib

/-!
Verification of the Shepherd policy-trigger CSV export jobs.

The development shallowly embeds the algorithmic core of
`scripts/create_csv.py` (full export), `scripts/create_csv_incremental.py`
(incremental export) and `scripts/s3-hash-location.py`:

* the incremental merger: retention floor, standard and non-strict
  watermarks, partitioning of the previous export and union with freshly
  queried rows (`create_csv_incremental.py`, `main`);
* argument validation (`get_args` of both jobs) and the full job's
  pushdown-predicate construction;
* the Athena query executor's submit/poll/timeout state machine
  (`create_csv.py`, `execute_query`);
* the PBKDF2-HMAC-SHA512 output-directory segment (`hash_key`).

Epoch arithmetic uses `Int` with `Int.fdiv`/`Int.fmod`, which match
Python's `//` and `%` on integers.
-/

namespace Shepherd

/-- `create_csv_incremental.py` line 163: `HOURLY_ALIGNER = 60 * 60`. -/
def HOURLY_ALIGNER : Int := 60 * 60

/-- `create_csv_incremental.py` line 164: `DAILY_ALIGNER = HOURLY_ALIGNER * 24`. -/
def DAILY_ALIGNER : Int := HOURLY_ALIGNER * 24

/-- The configuration options of the incremental job that feed the
watermark computation (`--maxHoursAgo`, `--fullDays`, `--hourly`,
`--nonStrict`). -/
structure IncArgs where
  maxHoursAgo : Int
  fullDays : Bool
  hourly : Bool
  nonStrict : Bool
deriving DecidableEq, Repr

/-- One output row: `start_time` is the event epoch in microseconds,
`hour` the hourly partition column (epoch seconds), `policy` the exploded
policy name. -/
structure TriggerRecord where
  start_time : Int
  hour : Int
  policy : String
deriving DecidableEq, Repr

/-- One row of the Athena source table before the explode: `policies` is
the (nullable) array column of matched policy names. -/
structure SourceEvent where
  start_time : Int
  hour : Int
  policies : Option (List String)
deriving DecidableEq, Repr

/-- `create_csv_incremental.py` line 514:
`aligner = DAILY_ALIGNER if args.fullDays else HOURLY_ALIGNER`. -/
def aligner (args : IncArgs) : Int :=
  if args.fullDays then DAILY_ALIGNER else HOURLY_ALIGNER

/-- `create_csv_incremental.py` lines 516-518: the retention floor in
microseconds,
`(((START_TIME - (3600 * args.maxHoursAgo)) // aligner) * aligner) * 1000000`. -/
def prelim_min_hour (START_TIME : Int) (args : IncArgs) : Int :=
  (((START_TIME - 3600 * args.maxHoursAgo).fdiv (aligner args)) * aligner args) * 1000000

/-- `create_csv_incremental.py` lines 532-534: previous-export rows at or
above the retention floor
(`input_df.filter("cast(start_time as bigint) >= prelim_min_hour")`). -/
def csv_prelim_df (START_TIME : Int) (args : IncArgs) (input_df : List TriggerRecord) :
    List TriggerRecord :=
  input_df.filter (fun r => decide (r.start_time ≥ prelim_min_hour START_TIME args))

/-- `create_csv_incremental.py` lines 545-546: the strict (standard)
watermark `(START_TIME - (START_TIME % 3600)) - (3600 * hours_ago)` with
`hours_ago = 1 if args.hourly else 24`. -/
def standard_min_hour_sec (START_TIME : Int) (args : IncArgs) : Int :=
  (START_TIME - START_TIME.fmod 3600) - 3600 * (if args.hourly then 1 else 24)

/-- The error raised by the Spark dict-form aggregate of
`create_csv_incremental.py` lines 557-562: `.agg` resolves the dict key
`start_time` against the projected frame, whose only column is `ts`. -/
def agg_analysis_exception : String :=
  "AnalysisException: cannot resolve column name start_time among (ts)"

/-- `create_csv_incremental.py` lines 557-562: the dict-form aggregate
`.agg` keyed on `start_time`, applied to the
`selectExpr("cast(start_time as bigint) as ts")` projection.  That
projection's only column is `ts`, yet the aggregate references
`start_time`, so Spark raises an `AnalysisException` for every input
frame, empty or not — the maximum is never computed. -/
def last_seen_epoch (_input_df : List TriggerRecord) : Except String Int :=
  .error agg_analysis_exception

/-- `create_csv_incremental.py` lines 545-568: the effective watermark in
seconds.  In strict mode it is the standard watermark.  With
`--nonStrict` the code would compute
`last_seen_hour = ((last_seen_epoch // 1000000) // aligner) * aligner`
and take `max(last_seen_hour, increm_min_hour_sec)` (lines 563-568,
mirrored in the `.ok` arm), but the aggregate feeding it raises an
`AnalysisException` first, so that arm is never reached. -/
def increm_min_hour_sec (START_TIME : Int) (args : IncArgs) (input_df : List TriggerRecord) :
    Except String Int :=
  let std := standard_min_hour_sec START_TIME args
  if args.nonStrict then
    match last_seen_epoch input_df with
    | .error e => .error e
    | .ok ls =>
        let last_seen_hour := ((ls.fdiv 1000000).fdiv (aligner args)) * aligner args
        .ok (max last_seen_hour std)
  else
    .ok std

/-- `create_csv_incremental.py` lines 572-574: previous-export rows kept
for the merge
(`csv_prelim_df.filter("cast(start_time as bigint) < increm_min_hour_micro")`). -/
def csv_hits_in_range (increm_min_hour_micro : Int) (csv_prelim : List TriggerRecord) :
    List TriggerRecord :=
  csv_prelim.filter (fun r => decide (r.start_time < increm_min_hour_micro))

/-- `create_csv_incremental.py` lines 578-586: the catalog read with the
pushdown predicate `(hour >= increm_min_hour_sec)`. -/
def raw_data (source : List SourceEvent) (increm_min_hour_sec : Int) : List SourceEvent :=
  source.filter (fun e => decide (e.hour ≥ increm_min_hour_sec))

/-- `create_csv_incremental.py` lines 621-626: freshly queried rows —
filter `policies is not NULL`, explode the policies array to one row per
element aliased `policy`, and keep rows whose `policy` is targeted. -/
def new_hits (source : List SourceEvent) (increm_min_hour_sec : Int) (pol_arr : List String) :
    List TriggerRecord :=
  (((raw_data source increm_min_hour_sec).filter (fun e => e.policies.isSome)).flatMap
      (fun e => (e.policies.getD []).map (fun p => ⟨e.start_time, e.hour, p⟩))).filter
    (fun r => decide (r.policy ∈ pol_arr))

/-- `create_csv_incremental.py` line 630:
`new_hits.union(csv_hits_in_range).orderBy("start_time")` (Spark `union`
is concatenation). -/
def write_df (new_hits csv_hits_in_range : List TriggerRecord) : List TriggerRecord :=
  List.mergeSort (new_hits ++ csv_hits_in_range) (fun r s => decide (r.start_time ≤ s.start_time))

/-- A source row whose `hour` partition column is the event time floored
to its hour: data-layout invariant of the hourly-partitioned Shepherd
table. -/
def HourPartitioned (start_time hour : Int) : Prop :=
  hour = ((start_time.fdiv 1000000).fdiv 3600) * 3600

instance (start_time hour : Int) : Decidable (HourPartitioned start_time hour) :=
  inferInstanceAs (Decidable (hour = ((start_time.fdiv 1000000).fdiv 3600) * 3600))

end Shepherd

namespace Shepherd

/-! Arithmetic helper lemmas. -/

theorem aligner_pos (args : IncArgs) : 0 < aligner args := by
  unfold aligner
  split <;> norm_num [DAILY_ALIGNER, HOURLY_ALIGNER]

theorem dvd_3600_aligner (args : IncArgs) : (3600 : Int) ∣ aligner args := by
  unfold aligner
  split <;> norm_num [DAILY_ALIGNER, HOURLY_ALIGNER]

theorem dvd_3600_standard (START_TIME : Int) (args : IncArgs) :
    (3600 : Int) ∣ standard_min_hour_sec START_TIME args := by
  unfold standard_min_hour_sec
  have h : START_TIME - START_TIME.fmod 3600 = 3600 * (START_TIME.fdiv 3600) := by
    rw [Int.fmod_def]; ring
  rw [h]
  exact Int.dvd_sub ⟨START_TIME.fdiv 3600, rfl⟩ ⟨if args.hourly then 1 else 24, rfl⟩

theorem dvd_3600_increm (START_TIME : Int) (args : IncArgs) (input_df : List TriggerRecord)
    (w : Int) (h : increm_min_hour_sec START_TIME args input_df = .ok w) :
    (3600 : Int) ∣ w := by
  unfold increm_min_hour_sec at h
  cases hns : args.nonStrict with
  | true =>
    simp only [hns, if_true, last_seen_epoch] at h
    exact absurd h (by simp)
  | false =>
    simp only [hns, Bool.false_eq_true, if_false, Except.ok.injEq] at h
    subst h
    exact dvd_3600_standard START_TIME args

/-- For a positive divisor `b` that divides `w`: `(a.fdiv b) * b ≥ w ↔ a ≥ w`. -/
theorem fdiv_mul_ge_iff {a b w : Int} (hb : 0 < b) (hw : b ∣ w) :
    w ≤ (a.fdiv b) * b ↔ w ≤ a := by
  obtain ⟨q, rfl⟩ := hw
  rw [Int.fdiv_eq_ediv _ (le_of_lt hb)]
  constructor
  · intro h
    exact le_trans h (Int.ediv_mul_le a (ne_of_gt hb))
  · intro h
    have h1 : q ≤ a / b := by
      rw [Int.le_ediv_iff_mul_le hb]
      linarith [mul_comm q b]
    have h2 : q * b ≤ (a / b) * b := (mul_le_mul_right hb).mpr h1
    linarith [mul_comm q b]

/-- For integers: `w ≤ a.fdiv b` implies `w * b ≤ a` for positive `b`. -/
theorem mul_le_of_le_fdiv {a b w : Int} (hb : 0 < b) (h : w ≤ a.fdiv b) : w * b ≤ a := by
  rw [Int.fdiv_eq_ediv _ (le_of_lt hb)] at h
  exact Int.mul_le_of_le_ediv hb h

/-- An hour-partitioned row lies at or after watermark `w * 1000000`
microseconds iff its partition lies at or after a `3600`-divisible
watermark `w` seconds. -/
theorem hour_ge_iff_time_ge {t hr w : Int} (hpart : HourPartitioned t hr)
    (hdvd : (3600 : Int) ∣ w) : w ≤ hr ↔ w * 1000000 ≤ t := by
  unfold HourPartitioned at hpart
  subst hpart
  rw [fdiv_mul_ge_iff (by norm_num) hdvd]
  constructor
  · intro h
    exact mul_le_of_le_fdiv (by norm_num) h
  · intro h
    have h1000 : (0:Int) < 1000000 := by norm_num
    rw [Int.fdiv_eq_ediv _ (le_of_lt h1000), Int.le_ediv_iff_mul_le h1000]
    exact h

/-- C1: the claimed non-strict watermark `max(last_seen, standard)` —
documented with worked examples in the script's own docstring (lines
80-98: effective watermark 11:00 UTC for the 12:20 UTC / 9:32 UTC
scenario) — is never computed: the aggregate feeding `last_seen` keys on
`start_time` against the `ts`-only projection, so every non-strict run,
exemplified here by that exact docstring scenario, aborts with the
`AnalysisException` and no watermark value is ever produced.  The same
input in strict mode yields the standard watermark 11:00 UTC
(1612868400). -/
theorem nonstrict_watermark_agg_crash :
    increm_min_hour_sec 1612873200 ⟨12, false, true, true⟩
        [⟨1612863120000000, 1612861200, "sb-phishing-page-1"⟩] =
      .error agg_analysis_exception
    ∧ (∀ w : Int,
        increm_min_hour_sec 1612873200 ⟨12, false, true, true⟩
          [⟨1612863120000000, 1612861200, "sb-phishing-page-1"⟩] ≠ .ok w)
    ∧ increm_min_hour_sec 1612873200 ⟨12, false, true, false⟩
        [⟨1612863120000000, 1612861200, "sb-phishing-page-1"⟩] = .ok 1612868400 := by
  refine ⟨rfl, fun w h => ?_, rfl⟩
  rw [show increm_min_hour_sec 1612873200 ⟨12, false, true, true⟩
      [⟨1612863120000000, 1612861200, "sb-phishing-page-1"⟩] =
    .error agg_analysis_exception from rfl] at h
  exact Except.noConfusion h

/-- C3: the retention floor is
`((now - 3600 * maxHoursAgo) div unit) * unit`, an exact multiple of the
alignment unit, and the kept rows are exactly the previous-export rows
whose event time lies in `[retention_floor, effective_watermark)`
(both measured in microseconds, the floor and watermark being in
seconds). -/
theorem retention_floor_and_kept (START_TIME : Int) (args : IncArgs)
    (input_df : List TriggerRecord) (w : Int)
    (_hw : increm_min_hour_sec START_TIME args input_df = .ok w) :
    ((if args.fullDays then (86400 : Int) else 3600) ∣
        ((START_TIME - 3600 * args.maxHoursAgo).fdiv
            (if args.fullDays then 86400 else 3600)) *
          (if args.fullDays then 86400 else 3600))
    ∧ prelim_min_hour START_TIME args =
        (((START_TIME - 3600 * args.maxHoursAgo).fdiv
            (if args.fullDays then 86400 else 3600)) *
          (if args.fullDays then 86400 else 3600)) * 1000000
    ∧ ∀ r : TriggerRecord,
        r ∈ csv_hits_in_range (w * 1000000) (csv_prelim_df START_TIME args input_df) ↔
          r ∈ input_df ∧ prelim_min_hour START_TIME args ≤ r.start_time ∧
            r.start_time < w * 1000000 := by
  have halign : aligner args = (if args.fullDays then 86400 else 3600) := by
    unfold aligner DAILY_ALIGNER HOURLY_ALIGNER
    cases args.fullDays <;> norm_num
  refine ⟨Dvd.intro_left _ rfl, by rw [prelim_min_hour, halign], fun r => ?_⟩
  simp only [csv_hits_in_range, csv_prelim_df, List.mem_filter, decide_eq_true_eq, ge_iff_le,
    and_assoc]

/-- Witness for C3: with `--maxHoursAgo 12`, `--fullDays` unset, at
12:20 UTC, the floor is 00:20 UTC floored to 00:00... here concretely:
rows below the floor or at/above the watermark are dropped, rows in
between are kept. -/
theorem retention_floor_and_kept_witness :
    ((if (false : Bool) then (86400 : Int) else 3600) ∣
        (((1612873200 : Int) - 3600 * 12).fdiv (if (false : Bool) then 86400 else 3600)) *
          (if (false : Bool) then 86400 else 3600))
    ∧ prelim_min_hour 1612873200 ⟨12, false, true, false⟩ =
        ((((1612873200 : Int) - 3600 * 12).fdiv (if (false : Bool) then 86400 else 3600)) *
          (if (false : Bool) then 86400 else 3600)) * 1000000
    ∧ ∀ r : TriggerRecord,
        r ∈ csv_hits_in_range ((1612868400 : Int) * 1000000)
            (csv_prelim_df 1612873200 ⟨12, false, true, false⟩
              [⟨1612863120000000, 1612861200, "sb-phishing-page-1"⟩]) ↔
          r ∈ [(⟨1612863120000000, 1612861200, "sb-phishing-page-1"⟩ : TriggerRecord)] ∧
            prelim_min_hour 1612873200 ⟨12, false, true, false⟩ ≤ r.start_time ∧
            r.start_time < (1612868400 : Int) * 1000000 :=
  retention_floor_and_kept 1612873200 ⟨12, false, true, false⟩
    [⟨1612863120000000, 1612861200, "sb-phishing-page-1"⟩] 1612868400
    rfl

/-- Membership in the kept partition: a record is kept iff it is a
previous-export row whose event time lies in the window
`[prelim_min_hour, increm_min_hour_micro)`. -/
theorem mem_csv_hits_in_range_iff (START_TIME : Int) (args : IncArgs)
    (input_df : List TriggerRecord) (wm_micro : Int) (r : TriggerRecord) :
    r ∈ csv_hits_in_range wm_micro (csv_prelim_df START_TIME args input_df) ↔
      r ∈ input_df ∧ prelim_min_hour START_TIME args ≤ r.start_time ∧
        r.start_time < wm_micro := by
  simp only [csv_hits_in_range, csv_prelim_df, List.mem_filter, decide_eq_true_eq, ge_iff_le,
    and_assoc]

/-- Every freshly queried record comes from a source event at or after
the watermark and inherits that event's `start_time` and `hour`. -/
theorem mem_new_hits (source : List SourceEvent) (wm_sec : Int) (pol_arr : List String)
    (r : TriggerRecord) (h : r ∈ new_hits source wm_sec pol_arr) :
    ∃ e ∈ source, wm_sec ≤ e.hour ∧ r.start_time = e.start_time ∧ r.hour = e.hour := by
  simp only [new_hits, raw_data, List.mem_filter, List.mem_flatMap, List.mem_map,
    decide_eq_true_eq, ge_iff_le] at h
  obtain ⟨⟨e, ⟨⟨he, hge⟩, _⟩, p, _, rfl⟩, _⟩ := h
  exact ⟨e, he, hge, rfl, rfl⟩

/-- C2: the kept previous-export rows and the freshly queried rows are
time-disjoint — every kept record's event time is strictly below the
effective watermark (in microseconds) and every fresh record's event
time is at or above it — so their union never double-counts a record.
(`hpart` is the layout invariant of the source table: the `hour`
partition column is the event time floored to its hour.) -/
theorem kept_fresh_time_disjoint (START_TIME : Int) (args : IncArgs)
    (input_df : List TriggerRecord) (source : List SourceEvent) (pol_arr : List String)
    (w : Int) (hw : increm_min_hour_sec START_TIME args input_df = .ok w)
    (hpart : ∀ e ∈ source, HourPartitioned e.start_time e.hour) :
    (∀ r ∈ csv_hits_in_range (w * 1000000) (csv_prelim_df START_TIME args input_df),
        r.start_time < w * 1000000)
    ∧ (∀ r ∈ new_hits source w pol_arr, w * 1000000 ≤ r.start_time)
    ∧ ∀ r ∈ csv_hits_in_range (w * 1000000) (csv_prelim_df START_TIME args input_df),
        r ∉ new_hits source w pol_arr := by
  have hkept : ∀ r ∈ csv_hits_in_range (w * 1000000) (csv_prelim_df START_TIME args input_df),
      r.start_time < w * 1000000 := fun r hr =>
    ((mem_csv_hits_in_range_iff START_TIME args input_df (w * 1000000) r).mp hr).2.2
  have hfresh : ∀ r ∈ new_hits source w pol_arr, w * 1000000 ≤ r.start_time := by
    intro r hr
    obtain ⟨e, he, hge, hst, _⟩ := mem_new_hits source w pol_arr r hr
    rw [hst]
    exact (hour_ge_iff_time_ge (hpart e he)
      (dvd_3600_increm START_TIME args input_df w hw)).mp hge
  exact ⟨hkept, hfresh, fun r hr hmem => absurd (hfresh r hmem) (not_le.mpr (hkept r hr))⟩

/-- Witness for C2: concrete run at 12:20 UTC with one kept row (9:32
UTC) and one fresh source event (12:06:40 UTC); watermark 11:00 UTC. -/
theorem kept_fresh_time_disjoint_witness :
    (∀ r ∈ csv_hits_in_range ((1612868400 : Int) * 1000000)
        (csv_prelim_df 1612873200 ⟨12, false, true, false⟩
          [⟨1612863120000000, 1612861200, "sb-phishing-page-1"⟩]),
        r.start_time < (1612868400 : Int) * 1000000)
    ∧ (∀ r ∈ new_hits [⟨1612870000000000, 1612868400, some ["sb-phishing-page-1"]⟩]
          1612868400 ["sb-phishing-page-1"],
        (1612868400 : Int) * 1000000 ≤ r.start_time)
    ∧ ∀ r ∈ csv_hits_in_range ((1612868400 : Int) * 1000000)
        (csv_prelim_df 1612873200 ⟨12, false, true, false⟩
          [⟨1612863120000000, 1612861200, "sb-phishing-page-1"⟩]),
        r ∉ new_hits [⟨1612870000000000, 1612868400, some ["sb-phishing-page-1"]⟩]
          1612868400 ["sb-phishing-page-1"] :=
  kept_fresh_time_disjoint 1612873200 ⟨12, false, true, false⟩
    [⟨1612863120000000, 1612861200, "sb-phishing-page-1"⟩]
    [⟨1612870000000000, 1612868400, some ["sb-phishing-page-1"]⟩]
    ["sb-phishing-page-1"] 1612868400 rfl (by decide)

/-- C4 counterexample: strict run at `START_TIME = 7200` with
`--maxHoursAgo 0` and `--hourly`.  The effective watermark is 3600 but
the retention floor is 7200, so the previous row at event time
3600000000 μs (which the fresh query returns again, since the source
holds nothing beyond the previous export) ends up in the merge result
even though it lies below the retention floor: the result is not the
previous export restricted to the floor. -/
theorem idempotent_rerun_counterexample :
    increm_min_hour_sec 7200 ⟨0, false, true, false⟩ [⟨3600000000, 3600, "p"⟩] = .ok 3600
    ∧ (∀ e ∈ [(⟨3600000000, 3600, some ["p"]⟩ : SourceEvent)],
        HourPartitioned e.start_time e.hour)
    ∧ (∀ x : TriggerRecord,
        x ∈ new_hits [⟨3600000000, 3600, some ["p"]⟩] 3600 ["p"] ↔
          x ∈ ([⟨3600000000, 3600, "p"⟩] : List TriggerRecord).filter
            (fun r => decide ((3600 : Int) ≤ r.hour)))
    ∧ ¬ (∀ x : TriggerRecord,
        x ∈ write_df (new_hits [⟨3600000000, 3600, some ["p"]⟩] 3600 ["p"])
            (csv_hits_in_range ((3600 : Int) * 1000000)
              (csv_prelim_df 7200 ⟨0, false, true, false⟩ [⟨3600000000, 3600, "p"⟩])) ↔
          x ∈ ([⟨3600000000, 3600, "p"⟩] : List TriggerRecord).filter
            (fun r => decide (prelim_min_hour 7200 ⟨0, false, true, false⟩ ≤ r.start_time))) := by
  refine ⟨rfl, by decide, ?_, ?_⟩
  · have h1 : new_hits [⟨3600000000, 3600, some ["p"]⟩] 3600 ["p"] =
        [⟨3600000000, 3600, "p"⟩] := by decide
    have h2 : ([⟨3600000000, 3600, "p"⟩] : List TriggerRecord).filter
        (fun r => decide ((3600 : Int) ≤ r.hour)) = [⟨3600000000, 3600, "p"⟩] := by decide
    intro x
    rw [h1, h2]
  · intro h
    have hmem : (⟨3600000000, 3600, "p"⟩ : TriggerRecord) ∈
        write_df (new_hits [⟨3600000000, 3600, some ["p"]⟩] 3600 ["p"])
          (csv_hits_in_range ((3600 : Int) * 1000000)
            (csv_prelim_df 7200 ⟨0, false, true, false⟩ [⟨3600000000, 3600, "p"⟩])) := by
      rw [write_df]
      exact List.mem_mergeSort.mpr (by decide)
    have h2 : ([⟨3600000000, 3600, "p"⟩] : List TriggerRecord).filter
        (fun r => decide (prelim_min_hour 7200 ⟨0, false, true, false⟩ ≤ r.start_time)) =
        [] := by decide
    have := (h ⟨3600000000, 3600, "p"⟩).mp hmem
    rw [h2] at this
    exact absurd this (List.not_mem_nil _)

/-- C4 amended: when additionally the retention floor does not exceed the
effective watermark, a re-run with no new source data (the fresh query
returns exactly the previous-export rows at or after the watermark)
produces a merge result equal as a set to the previous export restricted
to rows at or above the retention floor. -/
theorem idempotent_rerun_amended (START_TIME : Int) (args : IncArgs)
    (input_df : List TriggerRecord) (source : List SourceEvent) (pol_arr : List String)
    (w : Int) (hw : increm_min_hour_sec START_TIME args input_df = .ok w)
    (hfloor : prelim_min_hour START_TIME args ≤ w * 1000000)
    (hpart : ∀ r ∈ input_df, HourPartitioned r.start_time r.hour)
    (hnonew : ∀ x : TriggerRecord,
      x ∈ new_hits source w pol_arr ↔ x ∈ input_df ∧ w ≤ x.hour) :
    ∀ x : TriggerRecord,
      x ∈ write_df (new_hits source w pol_arr)
          (csv_hits_in_range (w * 1000000) (csv_prelim_df START_TIME args input_df)) ↔
        x ∈ input_df ∧ prelim_min_hour START_TIME args ≤ x.start_time := by
  intro x
  have hdvd := dvd_3600_increm START_TIME args input_df w hw
  rw [write_df, List.mem_mergeSort, List.mem_append, hnonew,
    mem_csv_hits_in_range_iff]
  constructor
  · rintro (⟨hx, hhour⟩ | ⟨hx, hge, _⟩)
    · have := (hour_ge_iff_time_ge (hpart x hx) hdvd).mp hhour
      exact ⟨hx, le_trans hfloor this⟩
    · exact ⟨hx, hge⟩
  · rintro ⟨hx, hge⟩
    by_cases hlt : x.start_time < w * 1000000
    · exact Or.inr ⟨hx, hge, hlt⟩
    · exact Or.inl ⟨hx, (hour_ge_iff_time_ge (hpart x hx) hdvd).mpr (not_lt.mp hlt)⟩

/-- Witness for C4 amended: run at 12:20 UTC, `--maxHoursAgo 12`,
`--hourly` (strict mode); previous export has one row at 9:32 UTC, the
source holds the same single event; watermark 11:00 UTC, floor 0:00 UTC
+ offset (1612785600).  The merge result is the previous export
restricted to the floor. -/
theorem idempotent_rerun_amended_witness :
    (⟨1612863120000000, 1612861200, "sb-phishing-page-1"⟩ : TriggerRecord) ∈ write_df
          (new_hits [⟨1612863120000000, 1612861200, some ["sb-phishing-page-1"]⟩]
            1612868400 ["sb-phishing-page-1"])
          (csv_hits_in_range ((1612868400 : Int) * 1000000)
            (csv_prelim_df 1612873200 ⟨12, false, true, false⟩
              [⟨1612863120000000, 1612861200, "sb-phishing-page-1"⟩])) ↔
        (⟨1612863120000000, 1612861200, "sb-phishing-page-1"⟩ : TriggerRecord) ∈
            [(⟨1612863120000000, 1612861200, "sb-phishing-page-1"⟩ : TriggerRecord)] ∧
          prelim_min_hour 1612873200 ⟨12, false, true, false⟩ ≤ (1612863120000000 : Int) :=
  idempotent_rerun_amended 1612873200 ⟨12, false, true, false⟩
    [⟨1612863120000000, 1612861200, "sb-phishing-page-1"⟩]
    [⟨1612863120000000, 1612861200, some ["sb-phishing-page-1"]⟩]
    ["sb-phishing-page-1"] 1612868400 rfl (by decide) (by decide)
    (by
      intro x
      have h1 : new_hits [⟨1612863120000000, 1612861200, some ["sb-phishing-page-1"]⟩]
          1612868400 ["sb-phishing-page-1"] = [] := by decide
      rw [h1]
      simp only [List.not_mem_nil, false_iff, List.mem_singleton, not_and]
      rintro rfl
      decide)
    ⟨1612863120000000, 1612861200, "sb-phishing-page-1"⟩

/-- C10 counterexample: the claimed failure mechanism for an empty
previous export in non-strict mode — a null maximum followed by a
`TypeError` at the floor division — never occurs: the run dies earlier,
in the aggregate itself, with the column-resolution `AnalysisException`;
and the claimed one-row precondition does not exist, because a
non-empty previous export fails at the very same call with the very
same error. -/
theorem nonstrict_empty_input_counterexample :
    increm_min_hour_sec 7200 ⟨0, false, true, true⟩ [] ≠
      .error "TypeError: unsupported operand types for floor division: NoneType and int"
    ∧ increm_min_hour_sec 7200 ⟨0, false, true, true⟩ [] = .error agg_analysis_exception
    ∧ increm_min_hour_sec 7200 ⟨0, false, true, true⟩ [⟨3600000000, 3600, "p"⟩] =
      .error agg_analysis_exception := by
  refine ⟨fun h => ?_, rfl, rfl⟩
  rw [show increm_min_hour_sec 7200 ⟨0, false, true, true⟩ [] =
    .error agg_analysis_exception from rfl] at h
  simp only [Except.error.injEq] at h
  exact absurd h (by decide)

/-- C10 amended: in non-strict mode the watermark computation fails with
an error rather than falling back to the standard watermark — but for
every previous export, empty or not, and already at the
maximum-timestamp aggregate (whose dict key `start_time` cannot be
resolved against the `ts`-only projection), not at the floor division;
no one-row precondition makes it succeed, and no watermark value is
ever produced. -/
theorem nonstrict_input_always_errors (START_TIME maxHoursAgo : Int) (fullDays hourly : Bool)
    (input_df : List TriggerRecord) :
    increm_min_hour_sec START_TIME ⟨maxHoursAgo, fullDays, hourly, true⟩ input_df =
      .error agg_analysis_exception
    ∧ ∀ w : Int,
        increm_min_hour_sec START_TIME ⟨maxHoursAgo, fullDays, hourly, true⟩ input_df ≠
          .ok w := by
  refine ⟨rfl, fun w h => ?_⟩
  rw [show increm_min_hour_sec START_TIME ⟨maxHoursAgo, fullDays, hourly, true⟩ input_df =
    .error agg_analysis_exception from rfl] at h
  exact Except.noConfusion h

/-! ### Python string primitives used by `get_args` of both jobs -/

/-- Python truthiness of an optional string option: absent (`None`) and
the empty string are falsy, every other string is truthy. -/
def truthy : Option String → Bool
  | none => false
  | some s => decide (s.data ≠ [])

/-- An ASCII decimal digit (as used by `int(...)` on the option values,
which are plain ASCII). -/
def isAsciiDigit (c : Char) : Bool :=
  decide (48 ≤ c.toNat ∧ c.toNat ≤ 57)

/-- Value of a nonempty all-digit character list. -/
def digitsVal (cs : List Char) : Option Nat :=
  if cs ≠ [] ∧ cs.all isAsciiDigit then
    some (cs.foldl (fun a c => a * 10 + (c.toNat - 48)) 0)
  else none

/-- Python `int(s)` on a string: optional surrounding spaces, an optional
sign, then decimal digits; anything else raises (returns `none`). -/
def pyInt (s : String) : Option Int :=
  let cs := ((s.data.dropWhile (fun c => c = ' ')).reverse.dropWhile (fun c => c = ' ')).reverse
  match cs with
  | '-' :: rest => (digitsVal rest).map (fun n => -(n : Int))
  | '+' :: rest => (digitsVal rest).map (fun n => (n : Int))
  | rest => (digitsVal rest).map (fun n => (n : Int))

/-- ASCII lowering of one character (the bucket names this is applied to
are ASCII). -/
def pyLowerChar (c : Char) : Char :=
  if 65 ≤ c.toNat ∧ c.toNat ≤ 90 then Char.ofNat (c.toNat + 32) else c

/-- Python `s.lower().startswith(p)` for ASCII `p`. -/
def lowerStartsWith (s p : String) : Bool :=
  p.data.isPrefixOf (s.data.map pyLowerChar)

/-- Python `s.endswith(p)`. -/
def pyEndsWith (s p : String) : Bool :=
  p.data.isSuffixOf s.data

/-- Split a character list at `'-'` (Python `s.split("-")`). -/
def splitDash : List Char → List (List Char)
  | [] => [[]]
  | '-' :: rest => [] :: splitDash rest
  | c :: rest =>
      match splitDash rest with
      | [] => [[c]]
      | g :: gs => (c :: g) :: gs

/-! ### Calendar arithmetic (`datetime.strptime` / epoch conversion) -/

/-- A calendar date as produced by `datetime.strptime(s, "%Y%m%d")`. -/
structure Date where
  year : Nat
  month : Nat
  day : Nat
deriving DecidableEq, Repr

/-- Gregorian leap year. -/
def isLeap (y : Nat) : Bool :=
  decide (y % 4 = 0 ∧ (y % 100 ≠ 0 ∨ y % 400 = 0))

/-- Days in a month of the proleptic Gregorian calendar. -/
def daysInMonth (y m : Nat) : Nat :=
  if m = 2 then (if isLeap y then 29 else 28)
  else if m = 4 ∨ m = 6 ∨ m = 9 ∨ m = 11 then 30
  else 31

/-- `datetime.strptime(s, "%Y%m%d")`: eight ASCII digits making a valid
calendar date. -/
def strptimeYmd (s : String) : Option Date :=
  match s.data with
  | [y1, y2, y3, y4, m1, m2, d1, d2] =>
      match digitsVal [y1, y2, y3, y4], digitsVal [m1, m2], digitsVal [d1, d2] with
      | some y, some m, some d =>
          if 1 ≤ m ∧ m ≤ 12 ∧ 1 ≤ d ∧ d ≤ daysInMonth y m then some ⟨y, m, d⟩ else none
      | _, _, _ => none
  | _ => none

/-- Date ordering used by `args["startDt"] > args["endDt"]`. -/
def dateLe (a b : Date) : Bool :=
  decide (a.year < b.year ∨ (a.year = b.year ∧
    (a.month < b.month ∨ (a.month = b.month ∧ a.day ≤ b.day))))

/-- Days since 1970-01-01 of a Gregorian date (the value of
`(dt - datetime.utcfromtimestamp(0)).days`). -/
def daysFromCivil (dt : Date) : Int :=
  let y : Int := if dt.month ≤ 2 then (dt.year : Int) - 1 else (dt.year : Int)
  let m : Int := dt.month
  let d : Int := dt.day
  let era : Int := y.fdiv 400
  let yoe : Int := y - era * 400
  let mp : Int := (m + 9).fmod 12
  let doy : Int := (153 * mp + 2).fdiv 5 + d - 1
  let doe : Int := yoe * 365 + yoe.fdiv 4 - yoe.fdiv 100 + doy
  era * 146097 + doe - 719468

/-- Epoch seconds of a date's UTC midnight
(`(dt - datetime.utcfromtimestamp(0)).total_seconds()`). -/
def epochOfDate (dt : Date) : Int := daysFromCivil dt * 86400

end Shepherd

namespace Shepherd.FullJob

/-- The option values seen by `create_csv.py get_args` after
`getResolvedOptions` and the `--key=value` pair scan: the required
`outputBucket` plus the optional parameters the validation logic
inspects (`None` models an unsupplied option).  The remaining required
parameters (region, database, table, salt, ordinal, subscriber,
receiver, workgroup) are opaque strings never inspected by `get_args`. -/
structure RawArgs where
  outputBucket : String
  dayRange : Option String
  maxHoursAgo : Option String
  fullDays : Option String
  policies : Option String
  parentPolicies : Option String
  timeout_sec : Option String
deriving DecidableEq, Repr

/-- The validated argument namespace produced by `create_csv.py
get_args`.  `warnedMaxHoursAgoZero` records that the `maxHoursAgo = 0`
warning was printed (line 396-399). -/
structure Args where
  outputBucket : String
  dayRange : Option String
  maxHoursAgo : Option Int
  fullDays : Option String
  policy_type : String
  policy_strings : String
  startDt : Option Date
  endDt : Option Date
  timeout_sec : Int
  warnedMaxHoursAgoZero : Bool
deriving DecidableEq, Repr

/-- `create_csv.py` lines 356-442 (`get_args`): the validation chain.
Each `throw` is a `ValidationException` (for a malformed `--dayRange`,
the broken `except` handler at line 410-412 itself raises an
`AttributeError`, modelled by the corresponding message). -/
def get_args (a : RawArgs) : Except String Args := do
  if truthy a.maxHoursAgo ∧ truthy a.dayRange then
    throw "--maxHoursAgo and --dayRange cannot both be set."
  if ¬ truthy a.maxHoursAgo ∧ ¬ truthy a.dayRange then
    throw "Either --maxHoursAgo or --dayRange must be set."
  if truthy a.policies ∧ truthy a.parentPolicies then
    throw "--policies and --parentPolicies cannot both be set."
  if ¬ truthy a.policies ∧ ¬ truthy a.parentPolicies then
    throw "Either --policies or --parentPolicies must be set."
  let policy_type := if truthy a.policies then "policies" else "parent_policies"
  let policy_strings :=
    if truthy a.policies then a.policies.getD "" else a.parentPolicies.getD ""
  let (maxHoursAgoInt, startDt, endDt, warned) ←
    match a.maxHoursAgo with
    | some s =>
        match pyInt s with
        | none =>
            throw ("If set, --maxHoursAgo must be an integer. Value received " ++ s)
        | some n =>
            if n < 0 then throw "--max_hours_ago cannot be under 0."
            else pure (some n, (none : Option Date), (none : Option Date), decide (n = 0))
    | none =>
        if truthy a.dayRange then
          match splitDash (a.dayRange.getD "").data with
          | [startChars, endChars] =>
              match strptimeYmd ⟨startChars⟩, strptimeYmd ⟨endChars⟩ with
              | some start_dt, some end_dt =>
                  if ¬ dateLe start_dt end_dt then
                    throw "Invalid --dayRange received: start date cannot be later than end date."
                  else pure ((none : Option Int), some start_dt, some end_dt, false)
              | _, _ => throw "AttributeError: dict object has no attribute day_range"
          | _ => throw "AttributeError: dict object has no attribute day_range"
        else pure ((none : Option Int), (none : Option Date), (none : Option Date), false)
  let timeout_val ←
    match a.timeout_sec with
    | none => pure (1800 : Int)
    | some s =>
        match pyInt s with
        | none => throw "Invalid --timeout_sec received: value must be an integer."
        | some n => pure n
  if ¬ timeout_val > 0 then
    throw "Invalid --timeout_sec received: value must be greater than 0."
  if lowerStartsWith a.outputBucket "s3://" then
    throw "Bucket params must be bucket names only (i.e., not start with s3://)."
  if pyEndsWith a.outputBucket "/" then
    throw "Bucket params must not end with trailing slash (i.e., / )."
  return ⟨a.outputBucket, a.dayRange, maxHoursAgoInt, a.fullDays, policy_type, policy_strings,
    startDt, endDt, timeout_val, warned⟩

/-- The `elif args.dayRange:` arm of the pushdown construction
(`create_csv.py` lines 513-521).  The wildcard arm can only be reached
on an argument namespace that `get_args` never produces. -/
def pushdown_dayRange (args : Args) : String :=
  if truthy args.dayRange then
    match args.startDt, args.endDt with
    | some s, some e =>
        "hour >= " ++ toString (epochOfDate s) ++ " and hour < " ++
          toString (epochOfDate e + 86400)
    | _, _ => ""
  else ""

/-- `create_csv.py` lines 506-521: the time predicate of the
CSV-generating query.  `if args.maxHoursAgo:` uses Python int
truthiness, so both `None` and `0` fall through to the `dayRange` arm
and, when no day range was supplied, the predicate is the empty
string. -/
def pushdown (START_TIME : Int) (args : Args) : String :=
  match args.maxHoursAgo with
  | some n =>
      if n ≠ 0 then
        let al : Int := if truthy args.fullDays then DAILY_ALIGNER else HOURLY_ALIGNER
        "hour >= " ++ toString (((START_TIME - 3600 * n).fdiv al) * al)
      else pushdown_dayRange args
  | none => pushdown_dayRange args

end Shepherd.FullJob

namespace Shepherd.IncJob

/-- The option values seen by `create_csv_incremental.py get_args`: the
required `inputBucket` plus the optional parameters the validation logic
inspects. -/
structure RawArgs where
  inputBucket : String
  outputBucket : Option String
  dayRange : Option String
  maxHoursAgo : Option String
  fullDays : Option String
  hourly : Option String
  policies : Option String
  parentPolicies : Option String
  nonStrict : Option String
deriving DecidableEq, Repr

/-- The validated argument namespace produced by
`create_csv_incremental.py get_args`. -/
structure Args where
  inputBucket : String
  outputBucket : String
  policyType : String
  policyStrings : String
  maxHoursAgo : Option Int
  dayRange : Option String
  warnedMaxHoursAgoZero : Bool
deriving DecidableEq, Repr

/-- `create_csv_incremental.py` lines 362-418 (`get_args`).  Unlike the
full job, this chain never checks `--dayRange` against `--maxHoursAgo`:
no mutual-exclusion or presence validation of the time window is
performed. -/
def get_args (a : RawArgs) : Except String Args := do
  let outputBucket := if truthy a.outputBucket then a.outputBucket.getD "" else a.inputBucket
  if truthy a.policies ∧ truthy a.parentPolicies then
    throw "--policies and --parentPolicies cannot both be set."
  if ¬ truthy a.policies ∧ ¬ truthy a.parentPolicies then
    throw "Either --policies or --parentPolicies must be set."
  let policyType := if truthy a.policies then "policies" else "parent_policies"
  let policyStrings :=
    if truthy a.policies then a.policies.getD "" else a.parentPolicies.getD ""
  let (maxHoursAgoInt, warned) ←
    match a.maxHoursAgo with
    | some s =>
        match pyInt s with
        | none =>
            throw ("If set, --maxHoursAgo must be an integer. Value received " ++ s)
        | some n =>
            if n < 0 then throw "--maxHoursAgo cannot be under 0."
            else pure (some n, decide (n = 0))
    | none => pure ((none : Option Int), false)
  if lowerStartsWith outputBucket "s3://" ∨ lowerStartsWith a.inputBucket "s3://" then
    throw "Bucket params must be bucket names only (i.e., not start with s3://)."
  if pyEndsWith outputBucket "/" ∨ pyEndsWith a.inputBucket "/" then
    throw "Bucket params must not end with trailing slash (i.e., / )."
  return ⟨a.inputBucket, outputBucket, policyType, policyStrings, maxHoursAgoInt, a.dayRange,
    warned⟩

end Shepherd.IncJob

namespace Shepherd

/-- C6: the full-export job rejects supplying both or neither of
`--maxHoursAgo`/`--dayRange` during pure argument validation; the
incremental job, however, performs no such check — `get_args` succeeds
both when both options are supplied and when neither is, contradicting
its own docstring ("Will fail if ... BOTH dayRange and maxHoursAgo were
set, ... NEITHER dayRange nor maxHoursAgo was set"). -/
theorem window_option_validation :
    FullJob.get_args
        ⟨"bucket", some "20201230-20210119", some "12", none, some "sb-phishing-page-1",
          none, none⟩ =
      .error "--maxHoursAgo and --dayRange cannot both be set."
    ∧ FullJob.get_args ⟨"bucket", none, none, none, some "sb-phishing-page-1", none, none⟩ =
      .error "Either --maxHoursAgo or --dayRange must be set."
    ∧ IncJob.get_args
        ⟨"in-bucket", some "out-bucket", some "20201230-20210119", some "12", none, none,
          some "sb-phishing-page-1", none, none⟩ =
      .ok ⟨"in-bucket", "out-bucket", "policies", "sb-phishing-page-1", some 12,
        some "20201230-20210119", false⟩
    ∧ IncJob.get_args
        ⟨"in-bucket", some "out-bucket", none, none, none, none,
          some "sb-phishing-page-1", none, none⟩ =
      .ok ⟨"in-bucket", "out-bucket", "policies", "sb-phishing-page-1", none, none, false⟩ :=
  ⟨rfl, rfl, rfl, rfl⟩

/-- C7: supplying `--maxHoursAgo=0` to the full-export job passes
validation with a warning (not an error), but the generated query's time
predicate is the EMPTY string — `if args.maxHoursAgo:` treats the
integer 0 as falsy, so the claimed predicate
`hour >= ((now - 0) div unit) * unit` (or any `hour >= ...` predicate)
is never produced, leaving the assembled SQL malformed. -/
theorem max_hours_ago_zero_behavior :
    FullJob.get_args ⟨"bucket", none, some "0", none, some "sb-phishing-page-1", none, none⟩ =
      .ok ⟨"bucket", none, some 0, none, "policies", "sb-phishing-page-1", none, none, 1800,
        true⟩
    ∧ FullJob.pushdown 1612873200
        ⟨"bucket", none, some 0, none, "policies", "sb-phishing-page-1", none, none, 1800,
          true⟩ = ""
    ∧ ∀ s : String,
        FullJob.pushdown 1612873200
          ⟨"bucket", none, some 0, none, "policies", "sb-phishing-page-1", none, none, 1800,
            true⟩ ≠ "hour >= " ++ s := by
  refine ⟨rfl, rfl, fun s heq => ?_⟩
  rw [show FullJob.pushdown 1612873200
      ⟨"bucket", none, some 0, none, "policies", "sb-phishing-page-1", none, none, 1800,
        true⟩ = "" from rfl] at heq
  have hd := congrArg String.data heq
  rw [String.data_append] at hd
  simp at hd

end Shepherd

namespace Shepherd.QueryExec

/-- Athena query lifecycle states as observed through
`get_query_execution` (`create_csv.py`, Boto keys `QUEUED`, `RUNNING`,
`SUCCEEDED`; any other terminal state is reported as failed or
cancelled). -/
inductive AState
  | QUEUED
  | RUNNING
  | SUCCEEDED
  | FAILED
  | CANCELLED
deriving DecidableEq, Repr

/-- The four ways `execute_query` can finish: the two
`TimeoutException`s (each message carries `args.timeout_sec` and names
its stage), the `QueryException` carrying the engine's
`StateChangeReason`, and normal return. -/
inductive Outcome
  | timeoutQueueStage (timeout_sec : Nat)
  | timeoutExecStage (timeout_sec : Nat)
  | queryFailed (reason : String)
  | succeeded
deriving DecidableEq, Repr

/-- One polling loop of `execute_query` (lines 293-304 for the QUEUED
stage, 308-319 for the RUNNING stage): poll `st p`; while it equals
`tgt`, sleep one second and fail once the elapsed time reaches
`timeout_sec`.  Each loop-condition evaluation is one fresh
`get_query_execution` call, indexed by `p`; each sleep is one elapsed
second, so `f` (the remaining fuel `timeout_sec - sleeps`) drops by one
per iteration and the timeout check `elapsed >= timeout_sec` fires
exactly when `f ≤ 1` after a sleep.  Returns `none` on timeout, or
`some (next poll index, remaining fuel)` when the observed state stops
matching. -/
def stageLoop (st : Nat → AState) (tgt : AState) (p f : Nat) : Option (Nat × Nat) :=
  if st p = tgt then
    if f ≤ 1 then none
    else stageLoop st tgt (p + 1) (f - 1)
  else some (p + 1, f)
termination_by f
decreasing_by omega

/-- `create_csv.py` lines 274-338 (`execute_query`): run the QUEUED
polling loop, then the RUNNING polling loop on the remaining time
budget, then check the final state — anything other than `SUCCEEDED`
raises a `QueryException` whose reason is the engine's
`StateChangeReason` (or `"UnknownQueryFailure"` when absent). -/
def execute_query (st : Nat → AState) (reason : Option String) (timeout_sec : Nat) : Outcome :=
  match stageLoop st .QUEUED 0 timeout_sec with
  | none => .timeoutQueueStage timeout_sec
  | some (p, f) =>
      match stageLoop st .RUNNING p f with
      | none => .timeoutExecStage timeout_sec
      | some (p2, _) =>
          if st p2 = .SUCCEEDED then .succeeded
          else .queryFailed (reason.getD "UnknownQueryFailure")

/-- A polling loop whose target state persists forever times out. -/
theorem stageLoop_none_of_persistent (st : Nat → AState) (tgt : AState) :
    ∀ f p, (∀ j, p ≤ j → st j = tgt) → stageLoop st tgt p f = none := by
  intro f
  induction f using Nat.strong_induction_on with
  | _ f ih =>
    intro p hp
    rw [stageLoop.eq_def, if_pos (hp p le_rfl)]
    by_cases hf : f ≤ 1
    · rw [if_pos hf]
    · rw [if_neg hf]
      exact ih (f - 1) (by omega) (p + 1) (fun j hj => hp j (by omega))

/-- If a polling loop exits, it exits just after a poll that did not
match the target. -/
theorem stageLoop_some_inv (st : Nat → AState) (tgt : AState) :
    ∀ f p p2 f2, stageLoop st tgt p f = some (p2, f2) →
      p < p2 ∧ st (p2 - 1) ≠ tgt := by
  intro f
  induction f using Nat.strong_induction_on with
  | _ f ih =>
    intro p p2 f2 h
    by_cases hst : st p = tgt
    · rw [stageLoop.eq_def, if_pos hst] at h
      by_cases hf : f ≤ 1
      · rw [if_pos hf] at h; exact absurd h (by simp)
      · rw [if_neg hf] at h
        have := ih (f - 1) (by omega) (p + 1) p2 f2 h
        exact ⟨by omega, this.2⟩
    · rw [stageLoop.eq_def, if_neg hst] at h
      simp only [Option.some.injEq, Prod.mk.injEq] at h
      obtain ⟨rfl, rfl⟩ := h
      simpa using hst

/-- A polling loop whose target persists up to poll `m` (exclusive),
stops matching at `m`, and has enough time budget, exits at `m` with the
budget decremented by one second per matching poll. -/
theorem stageLoop_exits (st : Nat → AState) (tgt : AState) :
    ∀ f p m, p ≤ m → (∀ j, p ≤ j → j < m → st j = tgt) → st m ≠ tgt →
      m - p + 1 ≤ f → stageLoop st tgt p f = some (m + 1, f - (m - p)) := by
  intro f
  induction f using Nat.strong_induction_on with
  | _ f ih =>
    intro p m hpm hpre hm hf
    by_cases hpm2 : p = m
    · subst hpm2
      rw [stageLoop.eq_def, if_neg hm]
      simp
    · have hplt : p < m := lt_of_le_of_ne hpm hpm2
      have hst : st p = tgt := hpre p le_rfl hplt
      rw [stageLoop.eq_def, if_pos hst, if_neg (by omega : ¬ f ≤ 1)]
      rw [ih (f - 1) (by omega) (p + 1) m (by omega)
        (fun j hj hjm => hpre j (by omega) hjm) hm (by omega)]
      congr 2
      omega

/-- Once the engine reports RUNNING it never regresses to QUEUED, so
with every state non-terminal, RUNNING persists. -/
theorem running_persists (st : Nat → AState)
    (hnt : ∀ j, st j = .QUEUED ∨ st j = .RUNNING)
    (hmono : ∀ j, st j = .RUNNING → st (j + 1) ≠ .QUEUED) :
    ∀ b, st b = .RUNNING → ∀ j, b ≤ j → st j = .RUNNING := by
  intro b hb j hj
  induction j, hj using Nat.le_induction with
  | base => exact hb
  | succ k _ ihk => exact (hnt (k + 1)).resolve_left (hmono k ihk)

/-- C5: behaviour of the query executor.
(i) If the query is still non-terminal (QUEUED or RUNNING, never
regressing from RUNNING to QUEUED) when the time budget runs out, the
call raises one of the two timeout errors;
(ii) stuck in QUEUED it is the queue-stage timeout;
(iii) stuck in RUNNING it is the execution-stage timeout;
(iv) if instead the engine reaches the terminal FAILED state at poll `n`
before the timeout (`n < timeout_sec`), the call raises a query error
carrying the engine's failure reason string — an outcome distinct from
both timeout errors. -/
theorem execute_query_outcomes (st : Nat → AState) (r : String) (T n : Nat) :
    ((∀ j, st j = .QUEUED ∨ st j = .RUNNING) →
      (∀ j, st j = .RUNNING → st (j + 1) ≠ .QUEUED) →
      execute_query st (some r) T = .timeoutQueueStage T ∨
        execute_query st (some r) T = .timeoutExecStage T)
    ∧ ((∀ j, st j = .QUEUED) → execute_query st (some r) T = .timeoutQueueStage T)
    ∧ ((∀ j, st j = .RUNNING) → execute_query st (some r) T = .timeoutExecStage T)
    ∧ ((∀ j, j < n → st j = .QUEUED ∨ st j = .RUNNING) →
      (∀ j, j < n → st j = .RUNNING → st (j + 1) ≠ .QUEUED) →
      (∀ j, n ≤ j → st j = .FAILED) → n < T →
      execute_query st (some r) T = .queryFailed r ∧
        ∀ t : Nat, Outcome.queryFailed r ≠ .timeoutQueueStage t ∧
          Outcome.queryFailed r ≠ .timeoutExecStage t) := by
  refine ⟨?_, ?_, ?_, ?_⟩
  · intro hnt hmono
    cases hql : stageLoop st .QUEUED 0 T with
    | none => left; simp [execute_query, hql]
    | some pf =>
        right
        obtain ⟨p2, f2⟩ := pf
        obtain ⟨hpos, hne⟩ := stageLoop_some_inv st .QUEUED T 0 p2 f2 hql
        have hrun : st (p2 - 1) = .RUNNING := (hnt (p2 - 1)).resolve_left hne
        have hpers : ∀ j, p2 ≤ j → st j = .RUNNING := fun j hj =>
          running_persists st hnt hmono (p2 - 1) hrun j (by omega)
        have hrl : stageLoop st .RUNNING p2 f2 = none :=
          stageLoop_none_of_persistent st .RUNNING f2 p2 hpers
        simp [execute_query, hql, hrl]
  · intro hq
    have hql : stageLoop st .QUEUED 0 T = none :=
      stageLoop_none_of_persistent st .QUEUED T 0 (fun j _ => hq j)
    simp [execute_query, hql]
  · intro hr
    have hql : stageLoop st .QUEUED 0 T = some (1, T) := by
      rw [stageLoop.eq_def, if_neg (by rw [hr 0]; simp)]
    have hrl : stageLoop st .RUNNING 1 T = none :=
      stageLoop_none_of_persistent st .RUNNING T 1 (fun j _ => hr j)
    simp [execute_query, hql, hrl]
  · intro hpre hmono hterm hnT
    have hex : ∃ j, ¬ st j = .QUEUED := ⟨n, by rw [hterm n le_rfl]; simp⟩
    set q := Nat.find hex with hq
    have hqn : q ≤ n := Nat.find_min' hex (by rw [hterm n le_rfl]; simp)
    have hqQ : ∀ j, j < q → st j = .QUEUED := fun j hj =>
      not_not.mp (Nat.find_min hex hj)
    have hqne : ¬ st q = .QUEUED := Nat.find_spec hex
    have hql : stageLoop st .QUEUED 0 T = some (q + 1, T - q) := by
      have := stageLoop_exits st .QUEUED T 0 q (by omega)
        (fun j _ hj => hqQ j hj) hqne (by omega)
      simpa using this
    have hfail : execute_query st (some r) T = .queryFailed r := by
      by_cases hqeq : q = n
      · subst hqeq
        have hrl : stageLoop st .RUNNING (q + 1) (T - q) = some (q + 2, T - q) := by
          rw [stageLoop.eq_def, if_neg (by rw [hterm (q + 1) (by omega)]; simp)]
        have hfin : st (q + 2) = .FAILED := hterm (q + 2) (by omega)
        simp [execute_query, hql, hrl, hfin]
      · have hqlt : q < n := lt_of_le_of_ne hqn hqeq
        have hqR : st q = .RUNNING := (hpre q hqlt).resolve_left hqne
        have hrun : ∀ j, q ≤ j → j < n → st j = .RUNNING := by
          intro j hj hjn
          induction j, hj using Nat.le_induction with
          | base => exact hqR
          | succ k hk ihk =>
              exact (hpre (k + 1) hjn).resolve_left (hmono k (by omega) (ihk (by omega)))
        have hrl : stageLoop st .RUNNING (q + 1) (T - q) =
            some (n + 1, (T - q) - (n - (q + 1))) := by
          exact stageLoop_exits st .RUNNING (T - q) (q + 1) n (by omega)
            (fun j hj hjn => hrun j (by omega) hjn)
            (by rw [hterm n le_rfl]; simp) (by omega)
        have hfin : st (n + 1) = .FAILED := hterm (n + 1) (by omega)
        simp [execute_query, hql, hrl, hfin]
    exact ⟨hfail, fun t => ⟨by simp, by simp⟩⟩

/-- Witness for C5: an engine stuck in QUEUED times out at the queue
stage, one stuck in RUNNING times out at the execution stage, and one
that fails after one QUEUED poll surfaces the engine's reason. -/
theorem execute_query_outcomes_witness :
    execute_query (fun _ => AState.QUEUED) (some "SYNTAX_ERROR") 2 = .timeoutQueueStage 2
    ∧ execute_query (fun _ => AState.RUNNING) (some "SYNTAX_ERROR") 2 = .timeoutExecStage 2
    ∧ execute_query (fun j => if j < 1 then AState.QUEUED else AState.FAILED)
        (some "SYNTAX_ERROR") 3 = .queryFailed "SYNTAX_ERROR" :=
  ⟨(execute_query_outcomes (fun _ => AState.QUEUED) "SYNTAX_ERROR" 2 0).2.1 (fun _ => rfl),
    (execute_query_outcomes (fun _ => AState.RUNNING) "SYNTAX_ERROR" 2 0).2.2.1 (fun _ => rfl),
    ((execute_query_outcomes (fun j => if j < 1 then AState.QUEUED else AState.FAILED)
        "SYNTAX_ERROR" 3 1).2.2.2
      (fun j hj => Or.inl (by simp [hj]))
      (fun j hj hr => by simp [hj] at hr)
      (fun j hj => by simp [Nat.not_lt.mpr hj])
      (by norm_num)).1⟩

end Shepherd.QueryExec

namespace Shepherd.Crypto

/-!
The output-directory segment `hash_key` (identical in `create_csv.py`,
`create_csv_incremental.py` and `s3-hash-location.py`) calls
`hashlib.pbkdf2_hmac("sha512", ...)`, library code outside this
repository.  The primitive is embedded here from its specification
(FIPS 180-4 SHA-512, FIPS 198-1 HMAC, RFC 2898 PBKDF2 with
`dklen = None`, i.e. one 64-byte block); the embedding reproduces
`hashlib`'s test vectors.  Bytes are `Nat` below 256; 64-bit words are
`Nat` reduced modulo `2^64`.
-/

/-- `2^64`, the word modulus of SHA-512 arithmetic. -/
def M64 : Nat := 18446744073709551616

/-- Wrapping 64-bit addition. -/
def add64 (a b : Nat) : Nat := (a + b) % M64

/-- 64-bit right rotation. -/
def rotr64 (x n : Nat) : Nat := ((x >>> n) ||| (x <<< (64 - n))) % M64

/-- 64-bit right shift. -/
def shr64 (x n : Nat) : Nat := x >>> n

/-- 64-bit bitwise complement. -/
def not64 (x : Nat) : Nat := x ^^^ (M64 - 1)

/-- SHA-512 `Σ₀`. -/
def bsig0 (x : Nat) : Nat := rotr64 x 28 ^^^ rotr64 x 34 ^^^ rotr64 x 39

/-- SHA-512 `Σ₁`. -/
def bsig1 (x : Nat) : Nat := rotr64 x 14 ^^^ rotr64 x 18 ^^^ rotr64 x 41

/-- SHA-512 `σ₀`. -/
def ssig0 (x : Nat) : Nat := rotr64 x 1 ^^^ rotr64 x 8 ^^^ shr64 x 7

/-- SHA-512 `σ₁`. -/
def ssig1 (x : Nat) : Nat := rotr64 x 19 ^^^ rotr64 x 61 ^^^ shr64 x 6

/-- SHA-512 `Ch`. -/
def ch (x y z : Nat) : Nat := (x &&& y) ^^^ (not64 x &&& z)

/-- SHA-512 `Maj`. -/
def maj (x y z : Nat) : Nat := (x &&& y) ^^^ (x &&& z) ^^^ (y &&& z)

/-- The 80 SHA-512 round constants `K₀…K₇₉` (FIPS 180-4 §4.2.3). -/
def K512 : List Nat :=
  [4794697086780616226, 8158064640168781261, 13096744586834688815, 16840607885511220156,
    4131703408338449720, 6480981068601479193, 10538285296894168987, 12329834152419229976,
    15566598209576043074, 1334009975649890238, 2608012711638119052, 6128411473006802146,
    8268148722764581231, 9286055187155687089, 11230858885718282805, 13951009754708518548,
    16472876342353939154, 17275323862435702243, 1135362057144423861, 2597628984639134821,
    3308224258029322869, 5365058923640841347, 6679025012923562964, 8573033837759648693,
    10970295158949994411, 12119686244451234320, 12683024718118986047, 13788192230050041572,
    14330467153632333762, 15395433587784984357, 489312712824947311, 1452737877330783856,
    2861767655752347644, 3322285676063803686, 5560940570517711597, 5996557281743188959,
    7280758554555802590, 8532644243296465576, 9350256976987008742, 10552545826968843579,
    11727347734174303076, 12113106623233404929, 14000437183269869457, 14369950271660146224,
    15101387698204529176, 15463397548674623760, 17586052441742319658, 1182934255886127544,
    1847814050463011016, 2177327727835720531, 2830643537854262169, 3796741975233480872,
    4115178125766777443, 5681478168544905931, 6601373596472566643, 7507060721942968483,
    8399075790359081724, 8693463985226723168, 9568029438360202098, 10144078919501101548,
    10430055236837252648, 11840083180663258601, 13761210420658862357, 14299343276471374635,
    14566680578165727644, 15097957966210449927, 16922976911328602910, 17689382322260857208,
    500013540394364858, 748580250866718886, 1242879168328830382, 1977374033974150939,
    2944078676154940804, 3659926193048069267, 4368137639120453308, 4836135668995329356,
    5532061633213252278, 6448918945643986474, 6902733635092675308, 7801388544844847127]

/-- The eight-word SHA-512 hash state. -/
structure H8 where
  a : Nat
  b : Nat
  c : Nat
  d : Nat
  e : Nat
  f : Nat
  g : Nat
  h : Nat
deriving DecidableEq, Repr

/-- The SHA-512 initial hash value `H⁽⁰⁾` (FIPS 180-4 §5.3.5). -/
def IV512 : H8 :=
  ⟨7640891576956012808, 13503953896175478587, 4354685564936845355, 11912009170470909681,
    5840696475078001361, 11170449401992604703, 2270897969802886507, 6620516959819538809⟩

/-- One SHA-512 round, consuming one `(Kₜ, Wₜ)` pair. -/
def sha512_round (s : H8) (kw : Nat × Nat) : H8 :=
  let t1 := add64 s.h (add64 (bsig1 s.e) (add64 (ch s.e s.f s.g) (add64 kw.1 kw.2)))
  let t2 := add64 (bsig0 s.a) (maj s.a s.b s.c)
  ⟨add64 t1 t2, s.a, s.b, s.c, add64 s.d t1, s.e, s.f, s.g⟩

/-- Message-schedule extension: append the next word `n` times. -/
def extendW : List Nat → Nat → List Nat
  | w, 0 => w
  | w, n + 1 =>
      extendW (w ++ [add64 (ssig1 (w.getD (w.length - 2) 0))
        (add64 (w.getD (w.length - 7) 0)
          (add64 (ssig0 (w.getD (w.length - 15) 0)) (w.getD (w.length - 16) 0)))]) n

/-- Process one 16-word block. -/
def sha512_compress (s : H8) (block : List Nat) : H8 :=
  let w := extendW block 64
  let r := (K512.zip w).foldl sha512_round s
  ⟨add64 s.a r.a, add64 s.b r.b, add64 s.c r.c, add64 s.d r.d,
    add64 s.e r.e, add64 s.f r.f, add64 s.g r.g, add64 s.h r.h⟩

/-- Big-endian serialization of `v` into `n` bytes. -/
def beBytes (n v : Nat) : List Nat :=
  (List.range n).map (fun i => (v >>> (8 * (n - 1 - i))) % 256)

/-- Big-endian deserialization of a byte list into one word. -/
def wordOfBytes (bs : List Nat) : Nat :=
  bs.foldl (fun a b => a * 256 + b) 0

/-- Split a byte list into chunks of `k` bytes. -/
def chunks (k : Nat) (l : List Nat) : List (List Nat) :=
  if l = [] ∨ k = 0 then []
  else l.take k :: chunks k (l.drop k)
termination_by l.length
decreasing_by
  rename_i hne
  push_neg at hne
  have h1 : l.length ≠ 0 := fun h0 => hne.1 (List.eq_nil_of_length_eq_zero h0)
  simp [List.length_drop]
  omega

/-- SHA-512 padding (FIPS 180-4 §5.1.2): append `0x80`, zero bytes to
112 mod 128, then the 128-bit big-endian bit length. -/
def sha512_pad (msg : List Nat) : List Nat :=
  let l := msg.length
  let zeros := (239 - l % 128) % 128
  msg ++ [128] ++ List.replicate zeros 0 ++ beBytes 16 (8 * l)

/-- SHA-512 of a byte list, as a 64-byte list. -/
def sha512 (msg : List Nat) : List Nat :=
  let blocks := chunks 128 (sha512_pad msg)
  let fin := blocks.foldl (fun s b => sha512_compress s ((chunks 8 b).map wordOfBytes)) IV512
  [fin.a, fin.b, fin.c, fin.d, fin.e, fin.f, fin.g, fin.h].flatMap (beBytes 8)

/-- HMAC-SHA512 (FIPS 198-1) with its 128-byte block size. -/
def hmac_sha512 (key msg : List Nat) : List Nat :=
  let k0 := if 128 < key.length then sha512 key else key
  let k0p := k0 ++ List.replicate (128 - k0.length) 0
  sha512 ((k0p.map (fun b => b ^^^ 92)) ++ sha512 ((k0p.map (fun b => b ^^^ 54)) ++ msg))

/-- PBKDF2 iteration: XOR-accumulate `U₂ … U_c` onto `U₁`. -/
def pbkdf2_loop (pw u acc : List Nat) : Nat → List Nat
  | 0 => acc
  | n + 1 =>
      let u2 := hmac_sha512 pw u
      pbkdf2_loop pw u2 (List.zipWith (fun a b => a ^^^ b) acc u2) n

/-- `hashlib.pbkdf2_hmac("sha512", password, salt, iterations)` with the
default `dklen` (the 64-byte digest size, so exactly the first PBKDF2
block `F(P, S, c, 1)`). -/
def pbkdf2_hmac_sha512 (password salt : List Nat) (iterations : Nat) : List Nat :=
  let u1 := hmac_sha512 password (salt ++ beBytes 4 1)
  pbkdf2_loop password u1 u1 (iterations - 1)

/-- One lowercase hexadecimal digit. -/
def hexChar (n : Nat) : Char := "0123456789abcdef".data.getD n '0'

/-- Two lowercase hex digits of one byte. -/
def byteToHex (b : Nat) : List Char := [hexChar (b / 16 % 16), hexChar (b % 16)]

/-- Python `bytes.hex()`: lowercase hexadecimal rendering. -/
def pyHex (bs : List Nat) : String := ⟨bs.flatMap byteToHex⟩

/-- UTF-8 encoding of one character (`bytes(s, "utf-8")` per code
point). -/
def utf8EncodeChar (c : Char) : List Nat :=
  let n := c.toNat
  if n < 128 then [n]
  else if n < 2048 then [192 ||| (n >>> 6), 128 ||| (n &&& 63)]
  else if n < 65536 then
    [224 ||| (n >>> 12), 128 ||| ((n >>> 6) &&& 63), 128 ||| (n &&& 63)]
  else
    [240 ||| (n >>> 18), 128 ||| ((n >>> 12) &&& 63), 128 ||| ((n >>> 6) &&& 63),
      128 ||| (n &&& 63)]

/-- Python `bytes(s, "utf-8")`. -/
def utf8Encode (s : String) : List Nat := s.data.flatMap utf8EncodeChar

/-- `hash_key` — identical in `create_csv.py` lines 445-453,
`create_csv_incremental.py` lines 447-455 and `s3-hash-location.py`
lines 7-15: UTF-8-encode the four parameters, then
`hashlib.pbkdf2_hmac("sha512", subscriber_bytes + receiver_bytes,
salt_bytes + ordinal_bytes, 100000).hex()`. -/
def hash_key (salt ordinal subscriber receiver : String) : String :=
  let salt_bytes := utf8Encode salt
  let ordinal_bytes := utf8Encode ordinal
  let subscriber_bytes := utf8Encode subscriber
  let receiver_bytes := utf8Encode receiver
  pyHex (pbkdf2_hmac_sha512 (subscriber_bytes ++ receiver_bytes)
    (salt_bytes ++ ordinal_bytes) 100000)

/-- Modelled from the spec: "a salted key-derivation function
(100,000-iteration PBKDF2 with HMAC-SHA512, salt = `salt‖ordinal`,
message = `subscriber‖receiver`), rendered as a hexadecimal digest" —
the subdirectory segment as the spec words it, concatenating the
strings before encoding. -/
def spec_subdir_segment (salt ordinal subscriber receiver : String) : String :=
  pyHex (pbkdf2_hmac_sha512 (utf8Encode (subscriber ++ receiver))
    (utf8Encode (salt ++ ordinal)) 100000)

/-- UTF-8 encoding is a monoid homomorphism on strings. -/
theorem utf8Encode_append (a b : String) :
    utf8Encode (a ++ b) = utf8Encode a ++ utf8Encode b := by
  simp [utf8Encode, String.data_append, List.flatMap_append]

/-- A SHA-512 digest is 64 bytes. -/
theorem sha512_length (msg : List Nat) : (sha512 msg).length = 64 := by
  simp [sha512, List.length_flatMap, beBytes]

/-- An HMAC-SHA512 tag is 64 bytes. -/
theorem hmac_sha512_length (key msg : List Nat) : (hmac_sha512 key msg).length = 64 := by
  simp [hmac_sha512, sha512_length]

theorem pbkdf2_loop_length (n : Nat) :
    ∀ pw u acc : List Nat, acc.length = 64 → (pbkdf2_loop pw u acc n).length = 64 := by
  induction n with
  | zero => intro pw u acc h; simpa [pbkdf2_loop] using h
  | succ n ih =>
      intro pw u acc h
      simp only [pbkdf2_loop]
      exact ih pw _ _ (by rw [List.length_zipWith, hmac_sha512_length, h]; simp)

/-- A PBKDF2-HMAC-SHA512 key with the default length is 64 bytes. -/
theorem pbkdf2_hmac_sha512_length (password salt : List Nat) (iterations : Nat) :
    (pbkdf2_hmac_sha512 password salt iterations).length = 64 :=
  pbkdf2_loop_length (iterations - 1) password _ _ (hmac_sha512_length ..)

theorem getD_mem {l : List Char} {d : Char} (hd : d ∈ l) (n : Nat) : l.getD n d ∈ l := by
  rcases lt_or_le n l.length with h | h
  · rw [List.getD_eq_getElem l d h]
    exact List.getElem_mem h
  · rw [List.getD_eq_default l d h]
    exact hd

theorem hexChar_mem (n : Nat) : hexChar n ∈ "0123456789abcdef".data :=
  getD_mem (by decide) n

/-- Every character of a `bytes.hex()` rendering is a lowercase hex
digit. -/
theorem mem_pyHex {bs : List Nat} {c : Char} (h : c ∈ (pyHex bs).data) :
    c ∈ "0123456789abcdef".data := by
  have h2 : c ∈ bs.flatMap byteToHex := h
  rw [List.mem_flatMap] at h2
  obtain ⟨b, _, hc⟩ := h2
  simp only [byteToHex, List.mem_cons, List.not_mem_nil, or_false] at hc
  rcases hc with rfl | rfl
  · exact hexChar_mem _
  · exact hexChar_mem _

theorem pyHex_length (bs : List Nat) : (pyHex bs).length = 2 * bs.length := by
  show (bs.flatMap byteToHex).length = 2 * bs.length
  induction bs with
  | nil => rfl
  | cons b bs ih =>
      simp only [List.flatMap_cons, byteToHex, List.length_append, List.length_cons,
        List.length_nil, List.length_cons, ih]
      omega

/-- C8: the per-run subdirectory segment is the lowercase hexadecimal
digest of PBKDF2-HMAC-SHA512 with message `subscriber‖receiver`, salt
`salt‖ordinal` and 100,000 iterations (the spec-worded formulation
concatenates the strings before UTF-8 encoding; the code encodes first
and concatenates the byte strings — the two agree); the digest is 128
lowercase hex characters, and the function is deterministic in its four
inputs. -/
theorem hash_key_pbkdf2_segment (salt ordinal subscriber receiver : String) :
    hash_key salt ordinal subscriber receiver =
      spec_subdir_segment salt ordinal subscriber receiver
    ∧ (hash_key salt ordinal subscriber receiver).length = 128
    ∧ (∀ c ∈ (hash_key salt ordinal subscriber receiver).data, c ∈ "0123456789abcdef".data)
    ∧ ∀ s2 o2 a2 r2 : String, s2 = salt → o2 = ordinal → a2 = subscriber → r2 = receiver →
        hash_key s2 o2 a2 r2 = hash_key salt ordinal subscriber receiver := by
  refine ⟨?_, ?_, fun c hc => mem_pyHex hc, ?_⟩
  · simp [hash_key, spec_subdir_segment, utf8Encode_append]
  · show (pyHex (pbkdf2_hmac_sha512 _ _ 100000)).length = 128
    rw [pyHex_length, pbkdf2_hmac_sha512_length]
  · intro s2 o2 a2 r2 hs ho ha hr
    rw [hs, ho, ha, hr]

/-- Witness for C8 at concrete inputs, with the determinism hypotheses
discharged by `rfl`. -/
theorem hash_key_pbkdf2_segment_witness :
    hash_key "salt" "1" "subscriber" "receiver@example.gov" =
      spec_subdir_segment "salt" "1" "subscriber" "receiver@example.gov"
    ∧ (hash_key "salt" "1" "subscriber" "receiver@example.gov").length = 128
    ∧ hash_key "salt" "1" "subscriber" "receiver@example.gov" =
      hash_key "salt" "1" "subscriber" "receiver@example.gov" :=
  ⟨(hash_key_pbkdf2_segment "salt" "1" "subscriber" "receiver@example.gov").1,
    (hash_key_pbkdf2_segment "salt" "1" "subscriber" "receiver@example.gov").2.1,
    (hash_key_pbkdf2_segment "salt" "1" "subscriber" "receiver@example.gov").2.2.2
      "salt" "1" "subscriber" "receiver@example.gov" rfl rfl rfl rfl⟩

theorem hash_key_shift_subscriber (s o a x r : String) :
    hash_key s o (a ++ x) r = hash_key s o a (x ++ r) := by
  simp [hash_key, utf8Encode_append, List.append_assoc]

theorem hash_key_shift_salt (s x o a r : String) :
    hash_key (s ++ x) o a r = hash_key s (x ++ o) a r := by
  simp [hash_key, utf8Encode_append, List.append_assoc]

/-- C9: `hash_key` depends on its four arguments only through the two
concatenations `salt‖ordinal` and `subscriber‖receiver`: a boundary
shift between subscriber and receiver (or salt and ordinal) leaves the
digest unchanged, so distinct `(subscriber, receiver)` pairs — e.g.
`("ab", "c")` and `("a", "bc")` — share an output directory segment. -/
theorem hash_key_concat_structure (s o a x r : String) :
    hash_key s o (a ++ x) r = hash_key s o a (x ++ r)
    ∧ hash_key (s ++ x) o a r = hash_key s (x ++ o) a r
    ∧ ∃ p1 p2 : String × String, p1 ≠ p2 ∧
        hash_key s o p1.1 p1.2 = hash_key s o p2.1 p2.2 := by
  refine ⟨hash_key_shift_subscriber s o a x r, hash_key_shift_salt s x o a r,
    ⟨("ab", "c"), ("a", "bc"), by decide, ?_⟩⟩
  have h := hash_key_shift_subscriber s o "a" "b" "c"
  have e1 : ("a" : String) ++ "b" = "ab" := by decide
  have e2 : ("b" : String) ++ "c" = "bc" := by decide
  rw [e1, e2] at h
  exact h

end Shepherd.Crypto
